import Mathlib

/-!
Shallow embedding of the image-combiner program (`src/main.rs`) and proofs
about its core logic: the `FloatingImage` buffer, dimension reconciliation
(`get_smallest_dimensions`, `standardize_size`), pixel interleaving
(`alternate_pixels`, `set_rgba`) and the post-load part of `main`.

Modelling conventions:
- Rust `u8`/`u32`/`usize` values are `Nat`; `u32` arithmetic that can
  overflow is taken with release-build wrapping semantics, written
  explicitly as `% 2 ^ 32`.
- `Vec<u8>` is `List Nat`; a `Vec`'s reserved capacity is carried as an
  explicit field where the program observes it.
- Code that can hit a `panic!` or an out-of-bounds slice is embedded in
  `Option`, with `none` for the aborting run.
- External collaborators (the image crate's `resize_exact`, the encoder
  `save_buffer_with_format`) are parameters of the embedding; only the
  contracts the program relies on are assumed, as explicit hypotheses.
-/

/-- The `image` crate's container-format tag, as compared by `main`.
A representative subset of variants; the program only tests equality. -/
inductive ImageFormat where
  | png
  | jpeg
  | gif
  | bmp
deriving DecidableEq

/-- The error enum `ImageDataErrors` of `main.rs`.  Foreign error payloads
(`std::io::Error`, `ImageError`) are modelled as strings. -/
inductive ImageDataErrors where
  | DifferentImageFormats
  | BufferTooSmall
  | UnableToReadImageFromPath (cause : String)
  | UnableToFormatImage (path : String)
  | UnableToDecodeImage (cause : String)
  | UnableToSaveImage (cause : String)
deriving DecidableEq

/-- A decoded `DynamicImage`: width and height (u32) plus its RGBA8 byte
sequence (what `to_rgba8().into_vec()` yields). -/
structure DynImage where
  width : Nat
  height : Nat
  data : List Nat
deriving DecidableEq

/-- `GenericImageView::dimensions`: the `(width, height)` pair. -/
def DynImage.dimensions (img : DynImage) : Nat × Nat :=
  (img.width, img.height)

/-- The struct `FloatingImage` of `main.rs`.  `cap` is the reserved
capacity of the held vector (`self.data.capacity()` in the source), which
Rust tracks inside the `Vec` rather than as a named field. -/
structure FloatingImage where
  width : Nat
  height : Nat
  data : List Nat
  cap : Nat
  name : String

/-- `FloatingImage::new`: computes `height * width * 4` in `u32`
(wrapping, hence the explicit `% 2 ^ 32`), converts it to `usize`
(`try_into().unwrap()` — always succeeds on a 64-bit platform since the
wrapped value is below `2 ^ 32`), and reserves that capacity for an empty
buffer. -/
def FloatingImage.new (width height : Nat) (name : String) : FloatingImage :=
  let buffer_capacity := height * width * 4 % 2 ^ 32
  { width := width, height := height, data := [], cap := buffer_capacity, name := name }

/-- `FloatingImage::set_data`: rejects with `BufferTooSmall` when the
incoming data is longer than the reserved capacity, otherwise replaces the
buffer wholesale (`self.data = data`).  The returned `FloatingImage` is the
updated `self`; on the replacement the held vector is the incoming one, so
`cap` becomes that vector's own capacity (its length, the guaranteed
minimum). -/
def FloatingImage.set_data (self : FloatingImage) (data : List Nat) :
    Except ImageDataErrors FloatingImage :=
  if data.length > self.cap then
    Except.error ImageDataErrors.BufferTooSmall
  else
    Except.ok { self with data := data, cap := data.length }

/-- `get_smallest_dimensions`: compares the two `u32` pixel counts
`dim.0 * dim.1` (wrapping multiplication, hence `% 2 ^ 32`) and returns
`dim_1` exactly when the first count is strictly smaller. -/
def get_smallest_dimensions (dim_1 dim_2 : Nat × Nat) : Nat × Nat :=
  let pix_1 := dim_1.1 * dim_1.2 % 2 ^ 32
  let pix_2 := dim_2.1 * dim_2.2 % 2 ^ 32
  if pix_1 < pix_2 then dim_1 else dim_2

/-- `standardize_size`, parameterised by the external
`DynamicImage::resize_exact(width, height, Triangle)` operation.  The
`println!` of the source is I/O noise with no effect on the result and is
not modelled. -/
def standardize_size (resize : DynImage → Nat → Nat → DynImage)
    (image_1 image_2 : DynImage) : DynImage × DynImage :=
  let wh := get_smallest_dimensions image_1.dimensions image_2.dimensions
  if image_2.dimensions = wh then
    (resize image_1 wh.1 wh.2, image_2)
  else
    (image_1, resize image_2 wh.1 wh.2)

/-- Observable steps of one pipeline run.  A `resize` event records the
resized image's original width/height and the target width/height passed
to `resize_exact`. -/
inductive PipelineEvent where
  | resize (origWidth origHeight targetWidth targetHeight : Nat)
  | interleave
  | package
  | save
deriving DecidableEq

/-- `standardize_size` instrumented with the resize invocations it
performs: same branches as the source, each `resize_exact` call also
recorded as a `PipelineEvent.resize` event. -/
def standardize_size_traced (resize : DynImage → Nat → Nat → DynImage)
    (image_1 image_2 : DynImage) : (DynImage × DynImage) × List PipelineEvent :=
  let wh := get_smallest_dimensions image_1.dimensions image_2.dimensions
  if image_2.dimensions = wh then
    ((resize image_1 wh.1 wh.2, image_2),
      [PipelineEvent.resize image_1.width image_1.height wh.1 wh.2])
  else
    ((image_1, resize image_2 wh.1 wh.2),
      [PipelineEvent.resize image_2.width image_2.height wh.1 wh.2])

/-- `set_rgba`: pushes `vec[i]` for `i` in the inclusive range
`start..=end_`, panicking (`none`) when any index is out of bounds. -/
def set_rgba (vec : List Nat) (start end_ : Nat) : Option (List Nat) :=
  (List.range' start (end_ + 1 - start)).mapM fun i => vec[i]?

/-- `Vec::splice` with an inclusive range `start..=end_` and a
4-byte replacement: the range must satisfy `start <= end_ + 1` and
`end_ + 1 <= len` (otherwise Rust panics, `none` here); the elements of
the range are replaced by `repl`. -/
def vec_splice (l : List Nat) (start end_ : Nat) (repl : List Nat) :
    Option (List Nat) :=
  if start ≤ end_ + 1 ∧ end_ + 1 ≤ l.length then
    some (l.take start ++ (repl ++ l.drop (end_ + 1)))
  else
    none

/-- The `while i < vec_1.len()` loop of `alternate_pixels`: at each step
the 4-byte block at `i` is read from `vec_1` when `i % 8 == 0` and from
`vec_2` otherwise, spliced into `combined_data` at `i..=i+3`, and `i`
advances by 4. -/
def alternate_loop (vec_1 vec_2 : List Nat) (i : Nat) (combined_data : List Nat) :
    Option (List Nat) :=
  if _h : i < vec_1.length then
    match set_rgba (if i % 8 = 0 then vec_1 else vec_2) i (i + 3) with
    | none => none
    | some rgba =>
      match vec_splice combined_data i (i + 3) rgba with
      | none => none
      | some combined_data2 => alternate_loop vec_1 vec_2 (i + 4) combined_data2
  else
    some combined_data
termination_by vec_1.length - i
decreasing_by simp_wf; omega

/-- `alternate_pixels`: starts from `vec![0u8; vec_1.len()]` and runs the
interleaving loop. -/
def alternate_pixels (vec_1 vec_2 : List Nat) : Option (List Nat) :=
  alternate_loop vec_1 vec_2 0 (List.replicate vec_1.length 0)

/-- `DynamicImage::to_rgba8().into_vec()`: in this model a `DynImage`
already carries its RGBA8 bytes. -/
def to_rgba8 (img : DynImage) : List Nat :=
  img.data

/-- `combine_images`: interleave the two images' RGBA8 byte vectors. -/
def combine_images (image_1 image_2 : DynImage) : Option (List Nat) :=
  alternate_pixels (to_rgba8 image_1) (to_rgba8 image_2)

/-- The body of `main` after both images have been decoded, parameterised
by the external resize and encoder (`image::save_buffer_with_format`)
operations, and instrumented with the pipeline events that actually ran.
`none` in the first component is a panic inside `alternate_pixels`. -/
def main_after_load (resize : DynImage → Nat → Nat → DynImage)
    (saveFn : String → List Nat → Nat → Nat → ImageFormat → Except String Unit)
    (image_1 : DynImage) (image_format_1 : ImageFormat)
    (image_2 : DynImage) (image_format_2 : ImageFormat)
    (output_name : String) :
    Option (Except ImageDataErrors Unit) × List PipelineEvent :=
  if image_format_1 ≠ image_format_2 then
    (some (Except.error ImageDataErrors.DifferentImageFormats), [])
  else
    let std := standardize_size_traced resize image_1 image_2
    let output := FloatingImage.new std.1.1.width std.1.1.height output_name
    match combine_images std.1.1 std.1.2 with
    | none => (none, std.2 ++ [PipelineEvent.interleave])
    | some combined_data =>
      match output.set_data combined_data with
      | Except.error e =>
        (some (Except.error e), std.2 ++ [PipelineEvent.interleave, PipelineEvent.package])
      | Except.ok output2 =>
        match saveFn output2.name output2.data output2.width output2.height image_format_1 with
        | Except.error e =>
          (some (Except.error (ImageDataErrors.UnableToSaveImage e)),
            std.2 ++ [PipelineEvent.interleave, PipelineEvent.package, PipelineEvent.save])
        | Except.ok _ =>
          (some (Except.ok ()),
            std.2 ++ [PipelineEvent.interleave, PipelineEvent.package, PipelineEvent.save])

example : alternate_pixels [1, 2, 3, 4, 5, 6, 7, 8] [11, 12, 13, 14, 15, 16, 17, 18]
    = some [1, 2, 3, 4, 15, 16, 17, 18] := by
  simp [alternate_pixels]
  rw [alternate_loop.eq_def]
  norm_num [set_rgba, vec_splice, List.mapM.loop, List.range']
  rw [alternate_loop.eq_def]
  norm_num [set_rgba, vec_splice, List.mapM.loop, List.range']
  rw [alternate_loop.eq_def]
  norm_num

example : get_smallest_dimensions (2, 2) (1, 3) = (1, 3) := by decide

example : get_smallest_dimensions (65536, 65536) (1, 2) = (65536, 65536) := by decide

lemma mapM_getElem?_range' (vec : List Nat) :
    ∀ (n start : Nat), start + n ≤ vec.length →
      (List.range' start n).mapM (fun i => vec[i]?) = some ((vec.drop start).take n) := by
  intro n
  induction n with
  | zero => intro start h; rfl
  | succ n ih =>
    intro start h
    have hs : start < vec.length := by omega
    rw [List.range'_succ, List.mapM_cons, List.getElem?_eq_getElem hs, ih (start + 1) (by omega),
      List.drop_eq_getElem_cons hs]
    rfl

lemma set_rgba_eq (vec : List Nat) (i : Nat) (h : i + 4 ≤ vec.length) :
    set_rgba vec i (i + 3) = some ((vec.drop i).take 4) := by
  simp only [set_rgba]
  rw [show i + 3 + 1 - i = 4 from by omega]
  exact mapM_getElem?_range' vec 4 i (by omega)

lemma vec_splice_eq (l : List Nat) (i : Nat) (repl : List Nat) (h : i + 4 ≤ l.length) :
    vec_splice l i (i + 3) repl = some (l.take i ++ (repl ++ l.drop (i + 4))) := by
  simp only [vec_splice]
  rw [if_pos ⟨by omega, by omega⟩, show i + 3 + 1 = i + 4 from by omega]

lemma alternate_loop_stop (v1 v2 cd : List Nat) (i : Nat) (h : ¬ i < v1.length) :
    alternate_loop v1 v2 i cd = some cd := by
  rw [alternate_loop.eq_def]
  simp [h]

lemma alternate_loop_step (v1 v2 cd : List Nat) (i : Nat) (h : i < v1.length)
    (rgba cd2 : List Nat)
    (h1 : set_rgba (if i % 8 = 0 then v1 else v2) i (i + 3) = some rgba)
    (h2 : vec_splice cd i (i + 3) rgba = some cd2) :
    alternate_loop v1 v2 i cd = alternate_loop v1 v2 (i + 4) cd2 := by
  rw [alternate_loop.eq_def]
  simp only [h, dite_true, h1, h2]

lemma alternate_loop_spec (v1 v2 : List Nat) (h4 : v1.length % 4 = 0)
    (hle : v1.length ≤ v2.length) :
    ∀ (n i : Nat) (cd : List Nat), n = v1.length - i → i % 4 = 0 → i ≤ v1.length →
      cd.length = v1.length →
      ∃ out, alternate_loop v1 v2 i cd = some out ∧ out.length = v1.length ∧
        (∀ j, j < i → out[j]? = cd[j]?) ∧
        (∀ j, i ≤ j → j < v1.length → out[j]? = if j % 8 < 4 then v1[j]? else v2[j]?) := by
  intro n
  induction n using Nat.strong_induction_on with
  | _ n ih =>
    intro i cd hn hi4 hile hc
    by_cases hlt : i < v1.length
    case neg =>
      refine ⟨cd, alternate_loop_stop v1 v2 cd i hlt, hc, fun j _ => rfl, ?_⟩
      intro j hij hj
      omega
    case pos =>
      have hi4le : i + 4 ≤ v1.length := by omega
      have hsrc : i + 4 ≤ (if i % 8 = 0 then v1 else v2).length := by
        split <;> omega
      set src := if i % 8 = 0 then v1 else v2 with hsrcdef
      have h1 : set_rgba src i (i + 3) = some ((src.drop i).take 4) :=
        set_rgba_eq src i hsrc
      have hrgbalen : ((src.drop i).take 4).length = 4 := by
        simp only [List.length_take, List.length_drop]
        omega
      have h2 : vec_splice cd i (i + 3) ((src.drop i).take 4)
          = some (cd.take i ++ (((src.drop i).take 4) ++ cd.drop (i + 4))) :=
        vec_splice_eq cd i _ (by omega)
      set cd2 := cd.take i ++ (((src.drop i).take 4) ++ cd.drop (i + 4)) with hc2def
      have htakelen : (cd.take i).length = i := by
        simp only [List.length_take]
        omega
      have hc2len : cd2.length = v1.length := by
        simp only [hc2def, List.length_append, List.length_take, List.length_drop, hrgbalen]
        omega
      have hstep := alternate_loop_step v1 v2 cd i hlt _ _ h1 h2
      obtain ⟨out, hout, hlen, hlow, hhigh⟩ :=
        ih (v1.length - (i + 4)) (by omega) (i + 4) cd2 rfl (by omega) (by omega) hc2len
      refine ⟨out, by rw [hstep]; exact hout, hlen, ?_, ?_⟩
      · intro j hj
        rw [hlow j (by omega), hc2def,
          List.getElem?_append_left (by rw [htakelen]; omega)]
        exact List.getElem?_take_of_lt hj
      · intro j hij hj
        by_cases hj4 : j < i + 4
        case pos =>
          rw [hlow j hj4, hc2def,
            List.getElem?_append_right (by rw [htakelen]; omega), htakelen,
            List.getElem?_append_left (by rw [hrgbalen]; omega),
            List.getElem?_take_of_lt (by omega), List.getElem?_drop,
            show i + (j - i) = j from by omega, hsrcdef]
          by_cases h8 : i % 8 = 0
          · rw [if_pos h8, if_pos (by omega)]
          · rw [if_neg h8, if_neg (by omega)]
        case neg =>
          exact hhigh j (by omega) hj

lemma alternate_pixels_spec (v1 v2 : List Nat) (h4 : v1.length % 4 = 0)
    (hle : v1.length ≤ v2.length) :
    ∃ out, alternate_pixels v1 v2 = some out ∧ out.length = v1.length ∧
      ∀ j, j < v1.length → out[j]? = if j % 8 < 4 then v1[j]? else v2[j]? := by
  obtain ⟨out, hout, hlen, _, hhigh⟩ :=
    alternate_loop_spec v1 v2 h4 hle (v1.length - 0) 0 (List.replicate v1.length 0)
      rfl (by omega) (by omega) (by simp)
  refine ⟨out, ?_, hlen, fun j hj => hhigh j (by omega) hj⟩
  simp only [alternate_pixels]
  exact hout

/-- Claim C1: for equal-length byte sequences whose length is a multiple
of 8, `alternate_pixels` returns an output of the same length in which
the 4-byte block starting at each offset `o` that is a multiple of 4
equals the corresponding block of the first input when `o % 8 == 0` and
of the second input otherwise. -/
theorem C1_interleave_blocks (v1 v2 : List Nat) (hlen : v1.length = v2.length)
    (h8 : v1.length % 8 = 0) :
    ∃ out, alternate_pixels v1 v2 = some out ∧ out.length = v1.length ∧
      ∀ o, o % 4 = 0 → o + 4 ≤ v1.length →
        (out.drop o).take 4
          = if o % 8 = 0 then (v1.drop o).take 4 else (v2.drop o).take 4 := by
  obtain ⟨out, hout, holen, hpt⟩ := alternate_pixels_spec v1 v2 (by omega) (by omega)
  refine ⟨out, hout, holen, ?_⟩
  intro o ho4 ho4le
  by_cases h8o : o % 8 = 0
  · rw [if_pos h8o]
    apply List.ext_getElem?
    intro k
    by_cases hk : k < 4
    · rw [List.getElem?_take_of_lt hk, List.getElem?_take_of_lt hk,
        List.getElem?_drop, List.getElem?_drop, hpt (o + k) (by omega),
        if_pos (by omega)]
    · have hn1 : ((out.drop o).take 4).length ≤ k := by
        simp only [List.length_take, List.length_drop]
        omega
      have hn2 : ((v1.drop o).take 4).length ≤ k := by
        simp only [List.length_take, List.length_drop]
        omega
      rw [List.getElem?_eq_none hn1, List.getElem?_eq_none hn2]
  · rw [if_neg h8o]
    apply List.ext_getElem?
    intro k
    by_cases hk : k < 4
    · rw [List.getElem?_take_of_lt hk, List.getElem?_take_of_lt hk,
        List.getElem?_drop, List.getElem?_drop, hpt (o + k) (by omega),
        if_neg (by omega)]
    · have hn1 : ((out.drop o).take 4).length ≤ k := by
        simp only [List.length_take, List.length_drop]
        omega
      have hn2 : ((v2.drop o).take 4).length ≤ k := by
        simp only [List.length_take, List.length_drop]
        omega
      rw [List.getElem?_eq_none hn1, List.getElem?_eq_none hn2]

/-- Witness for C1 at two concrete 8-byte inputs. -/
theorem C1_interleave_blocks_witness :
    ([1, 2, 3, 4, 5, 6, 7, 8] : List Nat).length
        = ([11, 12, 13, 14, 15, 16, 17, 18] : List Nat).length
    ∧ ([1, 2, 3, 4, 5, 6, 7, 8] : List Nat).length % 8 = 0
    ∧ ∃ out, alternate_pixels [1, 2, 3, 4, 5, 6, 7, 8] [11, 12, 13, 14, 15, 16, 17, 18]
          = some out
        ∧ out.length = ([1, 2, 3, 4, 5, 6, 7, 8] : List Nat).length
        ∧ ∀ o, o % 4 = 0 → o + 4 ≤ ([1, 2, 3, 4, 5, 6, 7, 8] : List Nat).length →
            (out.drop o).take 4
              = if o % 8 = 0 then (([1, 2, 3, 4, 5, 6, 7, 8] : List Nat).drop o).take 4
                else (([11, 12, 13, 14, 15, 16, 17, 18] : List Nat).drop o).take 4 :=
  ⟨by decide, by decide,
    C1_interleave_blocks [1, 2, 3, 4, 5, 6, 7, 8] [11, 12, 13, 14, 15, 16, 17, 18]
      (by decide) (by decide)⟩

/-- Claim C9: when the first input's length is a multiple of 4 and the
second input is at least as long, `alternate_pixels` returns an output of
the first input's length, and bytes of the second input at indices at or
beyond the first input's length do not influence the output. -/
theorem C9_second_input_beyond_first_length_irrelevant (v1 v2 : List Nat)
    (h4 : v1.length % 4 = 0) (hle : v1.length ≤ v2.length) :
    (∃ out, alternate_pixels v1 v2 = some out ∧ out.length = v1.length)
    ∧ ∀ v2' : List Nat, v1.length ≤ v2'.length →
        v2.take v1.length = v2'.take v1.length →
        alternate_pixels v1 v2' = alternate_pixels v1 v2 := by
  obtain ⟨out, hout, holen, hpt⟩ := alternate_pixels_spec v1 v2 h4 hle
  refine ⟨⟨out, hout, holen⟩, ?_⟩
  intro v2' hle' htake
  obtain ⟨out', hout', holen', hpt'⟩ := alternate_pixels_spec v1 v2' h4 hle'
  rw [hout, hout']
  have heq : out' = out := by
    apply List.ext_getElem?
    intro j
    by_cases hj : j < v1.length
    · rw [hpt j hj, hpt' j hj]
      by_cases h8 : j % 8 < 4
      · rw [if_pos h8, if_pos h8]
      · rw [if_neg h8, if_neg h8, ← List.getElem?_take_of_lt (n := v1.length) hj,
          ← List.getElem?_take_of_lt (n := v1.length) (l := v2) hj, htake]
    · rw [List.getElem?_eq_none (by omega), List.getElem?_eq_none (by omega)]
  rw [heq]

/-- Witness for C9 at a 4-byte first input and a longer second input. -/
theorem C9_witness :
    ([1, 2, 3, 4] : List Nat).length % 4 = 0
    ∧ ([1, 2, 3, 4] : List Nat).length ≤ ([9, 8, 7, 6, 5] : List Nat).length
    ∧ ((∃ out, alternate_pixels [1, 2, 3, 4] [9, 8, 7, 6, 5] = some out
          ∧ out.length = ([1, 2, 3, 4] : List Nat).length)
      ∧ ∀ v2' : List Nat, ([1, 2, 3, 4] : List Nat).length ≤ v2'.length →
          ([9, 8, 7, 6, 5] : List Nat).take ([1, 2, 3, 4] : List Nat).length
            = v2'.take ([1, 2, 3, 4] : List Nat).length →
          alternate_pixels [1, 2, 3, 4] v2' = alternate_pixels [1, 2, 3, 4] [9, 8, 7, 6, 5]) :=
  ⟨by decide, by decide,
    C9_second_input_beyond_first_length_irrelevant [1, 2, 3, 4] [9, 8, 7, 6, 5]
      (by decide) (by decide)⟩

/-- Claim C10: for equal-length inputs whose common length is a multiple
of 4, `alternate_pixels` completes without reaching the out-of-bounds
panic in `set_rgba` (the run is not the aborting `none`). -/
theorem C10_no_panic (v1 v2 : List Nat) (hlen : v1.length = v2.length)
    (h4 : v1.length % 4 = 0) :
    ∃ out, alternate_pixels v1 v2 = some out := by
  obtain ⟨out, hout, -, -⟩ := alternate_pixels_spec v1 v2 h4 (by omega)
  exact ⟨out, hout⟩

/-- Witness for C10 at two concrete 12-byte inputs. -/
theorem C10_no_panic_witness :
    ([0, 1, 2, 3, 4, 5, 6, 7, 8, 9, 10, 11] : List Nat).length
        = ([5, 5, 5, 5, 6, 6, 6, 6, 7, 7, 7, 7] : List Nat).length
    ∧ ([0, 1, 2, 3, 4, 5, 6, 7, 8, 9, 10, 11] : List Nat).length % 4 = 0
    ∧ ∃ out, alternate_pixels [0, 1, 2, 3, 4, 5, 6, 7, 8, 9, 10, 11]
        [5, 5, 5, 5, 6, 6, 6, 6, 7, 7, 7, 7] = some out :=
  ⟨by decide, by decide,
    C10_no_panic [0, 1, 2, 3, 4, 5, 6, 7, 8, 9, 10, 11]
      [5, 5, 5, 5, 6, 6, 6, 6, 7, 7, 7, 7] (by decide) (by decide)⟩

/-- Counterexample to C2 as stated: on two 1x1 images of equal dimensions
(here even with a resize operation that returns its input unchanged) the
reconciliation branch still invokes one resize — on `image_1`, with the
shared dimensions as target — so "no resize invoked on either image" is
false. -/
theorem C2_counterexample_resize_invoked :
    DynImage.dimensions ⟨1, 1, [1, 2, 3, 4]⟩ = DynImage.dimensions ⟨1, 1, [5, 6, 7, 8]⟩
    ∧ (standardize_size_traced (fun img _ _ => img)
          ⟨1, 1, [1, 2, 3, 4]⟩ ⟨1, 1, [5, 6, 7, 8]⟩).2
        = [PipelineEvent.resize 1 1 1 1] := by
  exact ⟨rfl, rfl⟩

/-- Claim C2 (amended): for two input images of equal dimensions,
`standardize_size` returns `image_2` unchanged but invokes exactly one
resize, on `image_1`, with the shared (unchanged) dimensions as target. -/
theorem C2_amended_equal_dims (resize : DynImage → Nat → Nat → DynImage)
    (image_1 image_2 : DynImage)
    (h : image_1.dimensions = image_2.dimensions) :
    standardize_size_traced resize image_1 image_2
      = ((resize image_1 image_1.width image_1.height, image_2),
         [PipelineEvent.resize image_1.width image_1.height
            image_1.width image_1.height]) := by
  have hw : image_1.width = image_2.width := congrArg Prod.fst h
  have hh : image_1.height = image_2.height := congrArg Prod.snd h
  simp only [standardize_size_traced, get_smallest_dimensions, DynImage.dimensions]
  rw [← hw, ← hh]
  simp

/-- Witness for the amended C2 at two concrete 2x3 images. -/
theorem C2_amended_witness :
    DynImage.dimensions ⟨2, 3, []⟩ = DynImage.dimensions ⟨2, 3, [9]⟩
    ∧ standardize_size_traced (fun _ w h => ⟨w, h, []⟩) ⟨2, 3, []⟩ ⟨2, 3, [9]⟩
        = ((⟨2, 3, []⟩, ⟨2, 3, [9]⟩), [PipelineEvent.resize 2 3 2 3]) :=
  ⟨rfl, C2_amended_equal_dims (fun _ w h => ⟨w, h, []⟩) ⟨2, 3, []⟩ ⟨2, 3, [9]⟩ rfl⟩

/-- Counterexample to C3 as stated: with 65536x65536 against 1x2 the true
pixel count of the first pair is not below the second's, yet the wrapping
u32 comparison (65536 * 65536 wraps to 0) makes the function return the
first pair. -/
theorem C3_counterexample_overflow :
    get_smallest_dimensions (65536, 65536) (1, 2) = (65536, 65536)
    ∧ ¬ 65536 * 65536 < 1 * 2 := by
  exact ⟨rfl, by decide⟩

/-- Claim C3 (amended): whenever both true pixel counts fit in `u32`
(below `2 ^ 32`), `get_smallest_dimensions` returns the first pair exactly
when its pixel count is strictly smaller, and the second pair in every
other case, ties included; for overflowing counts the comparison is
performed on the products reduced modulo `2 ^ 32` instead. -/
theorem C3_amended_smallest_dimensions (dim_1 dim_2 : Nat × Nat)
    (h1 : dim_1.1 * dim_1.2 < 2 ^ 32) (h2 : dim_2.1 * dim_2.2 < 2 ^ 32) :
    get_smallest_dimensions dim_1 dim_2
      = if dim_1.1 * dim_1.2 < dim_2.1 * dim_2.2 then dim_1 else dim_2 := by
  simp only [get_smallest_dimensions]
  rw [Nat.mod_eq_of_lt h1, Nat.mod_eq_of_lt h2]

/-- Witness for the amended C3 at concrete dimension pairs, one strict
and one tie. -/
theorem C3_amended_witness :
    ((1 : Nat) * 2 < 2 ^ 32 ∧ (2 : Nat) * 3 < 2 ^ 32
      ∧ get_smallest_dimensions (1, 2) (2, 3)
          = if (1 : Nat) * 2 < 2 * 3 then (1, 2) else (2, 3))
    ∧ ((2 : Nat) * 3 < 2 ^ 32 ∧ (3 : Nat) * 2 < 2 ^ 32
      ∧ get_smallest_dimensions (2, 3) (3, 2)
          = if (2 : Nat) * 3 < 3 * 2 then (2, 3) else (3, 2)) :=
  ⟨⟨by decide, by decide, C3_amended_smallest_dimensions (1, 2) (2, 3) (by decide) (by decide)⟩,
    ⟨by decide, by decide, C3_amended_smallest_dimensions (2, 3) (3, 2) (by decide) (by decide)⟩⟩

/-- Counterexample to C5 as stated: at width = height = 65536 the product
width*height*4 = 2^34 fits the 64-bit size type and is nonzero, yet the
`u32` computation `height * width * 4` wraps to 0, so the buffer reserves
capacity 0 rather than width*height*4 — and creation does not fail. -/
theorem C5_counterexample_overflow :
    (FloatingImage.new 65536 65536 "out").cap = 0
    ∧ (65536 : Nat) * 65536 * 4 ≠ 0
    ∧ (65536 : Nat) * 65536 * 4 < 2 ^ 64 := by
  exact ⟨rfl, by decide, by decide⟩

lemma FloatingImage_new_cap (w h : Nat) (name : String) :
    (FloatingImage.new w h name).cap = w * h * 4 % 2 ^ 32 := by
  simp only [FloatingImage.new]
  rw [show h * w * 4 = w * h * 4 from by ring]

lemma FloatingImage_new_cap_of_lt (w h : Nat) (name : String)
    (hofl : w * h * 4 < 2 ^ 32) : (FloatingImage.new w h name).cap = w * h * 4 := by
  rw [FloatingImage_new_cap]
  exact Nat.mod_eq_of_lt hofl

/-- Claim C5 (amended): `FloatingImage::new` never fails on a platform
whose size type has at least 32 bits; it reserves capacity for exactly
`width * height * 4 mod 2 ^ 32` bytes (the wrapping u32 product) without
pre-filling the buffer, which equals `width * height * 4` exactly when
that product is below `2 ^ 32`. -/
theorem C5_amended_new_capacity (w h : Nat) (name : String) :
    (FloatingImage.new w h name).cap = w * h * 4 % 2 ^ 32
    ∧ (FloatingImage.new w h name).data = []
    ∧ (w * h * 4 < 2 ^ 32 → (FloatingImage.new w h name).cap = w * h * 4) :=
  ⟨FloatingImage_new_cap w h name, rfl, FloatingImage_new_cap_of_lt w h name⟩

/-- Witness for the amended C5 at a concrete 2x3 creation, including the
no-overflow exactness part. -/
theorem C5_amended_witness :
    (FloatingImage.new 2 3 "o").cap = 2 * 3 * 4 % 2 ^ 32
    ∧ (FloatingImage.new 2 3 "o").data = []
    ∧ (FloatingImage.new 2 3 "o").cap = 2 * 3 * 4 :=
  ⟨(C5_amended_new_capacity 2 3 "o").1, (C5_amended_new_capacity 2 3 "o").2.1,
    (C5_amended_new_capacity 2 3 "o").2.2 (by decide)⟩

/-- Claim C4: against a freshly constructed buffer (with non-overflowing
capacity width*height*4), `set_data` succeeds and stores exactly the given
data when its length is at most that capacity, and fails with
`BufferTooSmall` leaving the prior empty content unchanged when its length
exceeds it; there is no partial assignment. -/
theorem C4_set_data_guard (w h : Nat) (name : String) (data : List Nat)
    (hofl : w * h * 4 < 2 ^ 32) :
    (data.length ≤ w * h * 4 →
      (FloatingImage.new w h name).set_data data
        = Except.ok { FloatingImage.new w h name with data := data, cap := data.length })
    ∧ (w * h * 4 < data.length →
      (FloatingImage.new w h name).set_data data = Except.error ImageDataErrors.BufferTooSmall
      ∧ (FloatingImage.new w h name).data = []) := by
  have hcap : (FloatingImage.new w h name).cap = w * h * 4 :=
    FloatingImage_new_cap_of_lt w h name hofl
  constructor
  · intro hle
    simp only [FloatingImage.set_data]
    rw [if_neg (by omega)]
  · intro hgt
    refine ⟨?_, rfl⟩
    simp only [FloatingImage.set_data]
    rw [if_pos (by omega)]

/-- Witness for C4 at a 1x1 buffer: a 4-byte assignment succeeds and a
5-byte assignment fails with `BufferTooSmall`. -/
theorem C4_set_data_guard_witness :
    (1 : Nat) * 1 * 4 < 2 ^ 32
    ∧ ((([1, 2, 3, 4] : List Nat).length ≤ 1 * 1 * 4 →
        (FloatingImage.new 1 1 "x").set_data [1, 2, 3, 4]
          = Except.ok { FloatingImage.new 1 1 "x" with
              data := [1, 2, 3, 4], cap := ([1, 2, 3, 4] : List Nat).length })
      ∧ ((1 : Nat) * 1 * 4 < ([1, 2, 3, 4, 5] : List Nat).length →
        (FloatingImage.new 1 1 "x").set_data [1, 2, 3, 4, 5]
            = Except.error ImageDataErrors.BufferTooSmall
        ∧ (FloatingImage.new 1 1 "x").data = []))
    ∧ (FloatingImage.new 1 1 "x").set_data [1, 2, 3, 4]
        = Except.ok { FloatingImage.new 1 1 "x" with
            data := [1, 2, 3, 4], cap := ([1, 2, 3, 4] : List Nat).length }
    ∧ (FloatingImage.new 1 1 "x").set_data [1, 2, 3, 4, 5]
        = Except.error ImageDataErrors.BufferTooSmall :=
  ⟨by decide,
    ⟨(C4_set_data_guard 1 1 "x" [1, 2, 3, 4] (by decide)).1,
      (C4_set_data_guard 1 1 "x" [1, 2, 3, 4, 5] (by decide)).2⟩,
    (C4_set_data_guard 1 1 "x" [1, 2, 3, 4] (by decide)).1 (by decide),
    ((C4_set_data_guard 1 1 "x" [1, 2, 3, 4, 5] (by decide)).2 (by decide)).1⟩

/-- Claim C6: whenever the two detected container format tags differ, the
pipeline aborts with `DifferentImageFormats` and its event trace is empty:
no reconciliation resize and no interleaving is ever performed, whatever
the external resize and encoder do. -/
theorem C6_format_mismatch_aborts (resize : DynImage → Nat → Nat → DynImage)
    (saveFn : String → List Nat → Nat → Nat → ImageFormat → Except String Unit)
    (image_1 : DynImage) (image_format_1 : ImageFormat)
    (image_2 : DynImage) (image_format_2 : ImageFormat) (output_name : String)
    (hne : image_format_1 ≠ image_format_2) :
    main_after_load resize saveFn image_1 image_format_1 image_2 image_format_2 output_name
      = (some (Except.error ImageDataErrors.DifferentImageFormats), []) := by
  simp only [main_after_load]
  rw [if_pos hne]

/-- Witness for C6: a PNG input against a JPEG input aborts immediately
with an empty event trace. -/
theorem C6_format_mismatch_aborts_witness :
    ImageFormat.png ≠ ImageFormat.jpeg
    ∧ main_after_load (fun img _ _ => img) (fun _ _ _ _ _ => Except.ok ())
        ⟨1, 1, [0, 0, 0, 0]⟩ ImageFormat.png ⟨1, 1, [9, 9, 9, 9]⟩ ImageFormat.jpeg "out"
      = (some (Except.error ImageDataErrors.DifferentImageFormats), []) :=
  ⟨by decide,
    C6_format_mismatch_aborts (fun img _ _ => img) (fun _ _ _ _ _ => Except.ok ())
      ⟨1, 1, [0, 0, 0, 0]⟩ ImageFormat.png ⟨1, 1, [9, 9, 9, 9]⟩ ImageFormat.jpeg "out"
      (by decide)⟩

/-- Claim C7: provided the external resize returns an image of exactly the
requested dimensions, both images returned by `standardize_size` have the
dimensions computed by `get_smallest_dimensions` on the two inputs — in
particular identical width and identical height. -/
theorem C7_standardized_dims (resize : DynImage → Nat → Nat → DynImage)
    (hres : ∀ img w h, (resize img w h).dimensions = (w, h))
    (image_1 image_2 : DynImage) :
    (standardize_size resize image_1 image_2).1.dimensions
        = get_smallest_dimensions image_1.dimensions image_2.dimensions
    ∧ (standardize_size resize image_1 image_2).2.dimensions
        = get_smallest_dimensions image_1.dimensions image_2.dimensions := by
  have hwh : get_smallest_dimensions image_1.dimensions image_2.dimensions
        = image_1.dimensions
      ∨ get_smallest_dimensions image_1.dimensions image_2.dimensions
        = image_2.dimensions := by
    simp only [get_smallest_dimensions]
    split
    · exact Or.inl rfl
    · exact Or.inr rfl
  simp only [standardize_size]
  split
  case isTrue hcond =>
    exact ⟨(hres image_1 _ _).trans Prod.mk.eta, hcond⟩
  case isFalse hcond =>
    have h1 : get_smallest_dimensions image_1.dimensions image_2.dimensions
        = image_1.dimensions := by
      rcases hwh with hw | hw
      · exact hw
      · exact absurd hw.symm hcond
    exact ⟨h1.symm, (hres image_2 _ _).trans Prod.mk.eta⟩

/-- Witness for C7: a 4x4 image against a 2x2 image, with a concrete
resize that returns a plain image of the requested dimensions. -/
theorem C7_standardized_dims_witness :
    (∀ (img : DynImage) (w h : Nat),
        DynImage.dimensions ((fun (_ : DynImage) (w h : Nat) =>
          (⟨w, h, []⟩ : DynImage)) img w h) = (w, h))
    ∧ (standardize_size (fun _ w h => ⟨w, h, []⟩) ⟨4, 4, [1]⟩ ⟨2, 2, [2]⟩).1.dimensions
        = get_smallest_dimensions (DynImage.dimensions ⟨4, 4, [1]⟩)
            (DynImage.dimensions ⟨2, 2, [2]⟩)
    ∧ (standardize_size (fun _ w h => ⟨w, h, []⟩) ⟨4, 4, [1]⟩ ⟨2, 2, [2]⟩).2.dimensions
        = get_smallest_dimensions (DynImage.dimensions ⟨4, 4, [1]⟩)
            (DynImage.dimensions ⟨2, 2, [2]⟩) :=
  ⟨fun _ _ _ => rfl,
    (C7_standardized_dims (fun _ w h => ⟨w, h, []⟩) (fun _ _ _ => rfl)
      ⟨4, 4, [1]⟩ ⟨2, 2, [2]⟩).1,
    (C7_standardized_dims (fun _ w h => ⟨w, h, []⟩) (fun _ _ _ => rfl)
      ⟨4, 4, [1]⟩ ⟨2, 2, [2]⟩).2⟩

/-- A resize event does not enlarge the footprint: the target pixel count
is at most the resized image's original pixel count.  Non-resize events
impose nothing. -/
def no_upsample : PipelineEvent → Prop
  | PipelineEvent.resize origWidth origHeight targetWidth targetHeight =>
      targetWidth * targetHeight ≤ origWidth * origHeight
  | _ => True

lemma get_smallest_le (d1 d2 : Nat × Nat) (h1 : d1.1 * d1.2 < 2 ^ 32)
    (h2 : d2.1 * d2.2 < 2 ^ 32) :
    (get_smallest_dimensions d1 d2).1 * (get_smallest_dimensions d1 d2).2 ≤ d1.1 * d1.2
    ∧ (get_smallest_dimensions d1 d2).1 * (get_smallest_dimensions d1 d2).2 ≤ d2.1 * d2.2 := by
  simp only [get_smallest_dimensions, Nat.mod_eq_of_lt h1, Nat.mod_eq_of_lt h2]
  split
  case isTrue hlt => exact ⟨Nat.le_refl _, Nat.le_of_lt hlt⟩
  case isFalse hlt => exact ⟨Nat.le_of_not_lt hlt, Nat.le_refl _⟩

/-- Counterexample to C8 as stated: a 65536x65536 first image against a
1x2 second image.  The wrapping u32 pixel-count comparison selects the
65536x65536 pair as "smallest", so the 1x2 image is resized *up* to
65536x65536 — its footprint is enlarged from 2 pixels to 2^32. -/
theorem C8_counterexample_upsample :
    (standardize_size_traced (fun _ w h => ⟨w, h, []⟩) ⟨65536, 65536, []⟩ ⟨1, 2, []⟩).2
      = [PipelineEvent.resize 1 2 65536 65536]
    ∧ 1 * 2 < 65536 * 65536 := by
  exact ⟨rfl, by decide⟩

/-- Claim C8 (amended): provided neither input's true pixel count
overflows u32 (both below `2 ^ 32`), every resize invoked by
`standardize_size` targets the smaller footprint, so the resized image's
footprint is never enlarged; with overflowing pixel counts the wrapped
comparison can select the larger image and upsample the smaller one. -/
theorem C8_amended_no_upsample (resize : DynImage → Nat → Nat → DynImage)
    (image_1 image_2 : DynImage)
    (h1 : image_1.width * image_1.height < 2 ^ 32)
    (h2 : image_2.width * image_2.height < 2 ^ 32) :
    ∀ ev ∈ (standardize_size_traced resize image_1 image_2).2, no_upsample ev := by
  intro ev hev
  have hboth := get_smallest_le image_1.dimensions image_2.dimensions h1 h2
  simp only [standardize_size_traced] at hev
  split at hev
  · simp only [List.mem_singleton] at hev
    subst hev
    exact hboth.1
  · simp only [List.mem_singleton] at hev
    subst hev
    exact hboth.2

/-- Witness for the amended C8: a 4x4 image against a 2x2 image; the one
resize event recorded targets the 2x2 footprint. -/
theorem C8_amended_no_upsample_witness :
    (4 : Nat) * 4 < 2 ^ 32
    ∧ (2 : Nat) * 2 < 2 ^ 32
    ∧ ∀ ev ∈ (standardize_size_traced (fun _ w h => ⟨w, h, []⟩)
        ⟨4, 4, [3]⟩ ⟨2, 2, [7]⟩).2, no_upsample ev :=
  ⟨by decide, by decide,
    C8_amended_no_upsample (fun _ w h => ⟨w, h, []⟩) ⟨4, 4, [3]⟩ ⟨2, 2, [7]⟩
      (by decide) (by decide)⟩
